import Mathlib

/-!
Verification development for the DayFlow HR application.

The definitions below are a shallow embedding of the privileged admin HTTP
service (server.js: the Express handlers for the /api/admin routes), the SQL
schema of the backing store (supabase/migrations), and the two client-side
functions the claims mention (AuthContext.signUp and the attendance page
handleCheckIn).  The database is modelled as explicit lists of rows; each
request handler is a pure function from an environment (the outcomes of the
external auth service and of the fallible inserts), a database state and a
request to a response paired with the next database state.

Modelling conventions, matching the source:
* UUID values are modelled as Nat; DECIMAL(10,2) money values as Int;
  DATE and TIMESTAMP values as String (the code only passes them through
  and compares them for equality).
* JavaScript falsiness checks on request fields (e.g. the test
  !employee_id, which rejects both a missing field and an empty string)
  are modelled by strBlank and natFalsy.
* The supabase query-builder calls maybeSingle / update / insert are
  modelled by List.find?, List.map and list append.  Query failures of the
  primary mutation are not modelled (the corresponding 500 branches are
  unreachable in the model); the fallible best-effort inserts are
  controlled by Boolean flags in the environment, and the explicit profiles
  insert of add-employee can fail either through its flag (client-side
  failure) or deterministically through the table constraints
  (insertProfile).
* auth.admin.createUser is modelled together with the on_auth_user_created
  trigger installed by the migration: a successful creation also inserts
  the base profile row built from the signup metadata, with role left to
  the migration default employee.  The user_roles insert performed by the
  same trigger is outside the modelled tables, and a trigger failure
  surfaces as a failed creation.
* The generated column payroll.net_salary
  (basic_salary + COALESCE(allowances,0) - COALESCE(deductions,0))
  is computed by the insert and update operations, as the database does.
* The bonus-sum query of the payroll handler and the computedNet value
  derived from it feed only the JSONB details field of the audit log,
  which is not modelled; details is omitted from the audit-log rows.
* Result ordering of the admin GET list endpoints and the profile joins
  are presentational and omitted.
-/

namespace DayFlow

/-- One row of public.profiles (columns the server reads or writes). -/
structure ProfileRow where
  id : Nat
  employee_id : String
  email : String
  full_name : Option String
  phone : Option String
  department : Option String
  designation : Option String
  basic_salary : Option Int
  role : String
deriving DecidableEq

/-- One row of public.attendance. -/
structure AttendanceRow where
  id : Nat
  user_id : Nat
  date : String
  check_in : Option String
  check_out : Option String
  status : String
deriving DecidableEq

/-- One row of public.leave_requests (timestamps omitted). -/
structure LeaveRow where
  id : Nat
  user_id : Nat
  leave_type : String
  start_date : String
  end_date : String
  remarks : Option String
  status : String
  admin_comments : Option String
  reviewed_by : Option Nat
deriving DecidableEq

/-- One row of public.payroll; net_salary is the stored generated column. -/
structure PayrollRow where
  id : Nat
  user_id : Nat
  month : Nat
  year : Nat
  basic_salary : Int
  allowances : Option Int
  deductions : Option Int
  net_salary : Int
  payment_status : String
deriving DecidableEq

/-- One row of public.notifications (id and created_at omitted). -/
structure NotificationRow where
  user_id : Nat
  title : String
  message : String
  read : Bool
deriving DecidableEq

/-- One row of public.audit_logs (id, details and created_at omitted). -/
structure AuditRow where
  action : String
  performed_by : Nat
  target_user_id : Nat
deriving DecidableEq

/-- The business tables of the managed backend. -/
structure DB where
  profiles : List ProfileRow
  attendance : List AttendanceRow
  leave_requests : List LeaveRow
  payroll : List PayrollRow
  notifications : List NotificationRow
  audit_logs : List AuditRow
deriving DecidableEq

/-- Outcomes of the external services for one request: the random temp
password, the auth-service user creation result, and whether each fallible
insert fails on this request. -/
structure Env where
  tempPassword : String
  createUserResult : Option Nat
  profileInsertFails : Bool
  auditInsertFails : Bool
  notifInsertFails : Bool
  freshPayrollId : Nat
deriving DecidableEq

/-- The authentication context of a request: whether an Authorization
header with a Bearer scheme is present, and the user id the auth service
resolves the token to (none = invalid token). -/
structure AuthCtx where
  hasBearer : Bool
  tokenUser : Option Nat
deriving DecidableEq

/-- Request body of POST /api/admin/add-employee. -/
structure AddEmployeeBody where
  employee_id : Option String
  full_name : Option String
  email : Option String
  department : Option String
  designation : Option String
  basic_salary : Option Int
  phone : Option String
deriving DecidableEq

/-- Request body of POST /api/admin/leave-action. -/
structure LeaveActionBody where
  leave_id : Option Nat
  action : Option String
  admin_comment : Option String
deriving DecidableEq

/-- Request body of POST /api/admin/payroll. -/
structure PayrollBody where
  user_id : Option Nat
  month : Option Nat
  year : Option Nat
  basic_salary : Option Int
  allowances : Option Int
  deductions : Option Int
deriving DecidableEq

/-- Request body of POST /api/admin/notifications. -/
structure NotificationBody where
  user_id : Option Nat
  title : Option String
  message : Option String
deriving DecidableEq

/-- Request body of POST /api/admin/update-role. -/
structure UpdateRoleBody where
  user_id : Option Nat
  role : Option String
deriving DecidableEq

/-- Projection of a profile returned by GET /api/admin/profiles. -/
structure ProfileSummary where
  id : Nat
  full_name : Option String
  employee_id : String
deriving DecidableEq

/-- JSON response bodies produced by the admin service. -/
inductive RBody where
  | jsonError (error : String)
  | addEmployeeOk (userId : Nat) (tempPassword : String)
  | leaveOk (leave : LeaveRow)
  | dataLeaves (rows : List LeaveRow)
  | payrollOk (payroll : PayrollRow)
  | dataPayrolls (rows : List PayrollRow)
  | dataProfiles (rows : List ProfileSummary)
  | dataAttendance (rows : List AttendanceRow)
  | successOnly
  | roleOk (profile : ProfileRow)
deriving DecidableEq

/-- An HTTP response: status code and JSON body. -/
structure HResp where
  status : Nat
  body : RBody
deriving DecidableEq

/-- JavaScript falsiness of an optional string field: missing or empty. -/
def strBlank (o : Option String) : Bool :=
  match o with
  | none => true
  | some s => s.isEmpty

/-- JavaScript falsiness of an optional numeric id field. -/
def natFalsy (o : Option Nat) : Bool :=
  match o with
  | none => true
  | some n => n == 0

/-- The JavaScript idiom (x or null) on an optional string: empty maps to null. -/
def orNullStr (o : Option String) : Option String :=
  match o with
  | none => none
  | some s => if s.isEmpty then none else some s

/-- The JavaScript idiom (x or null) on an optional number: zero maps to null. -/
def orNullInt (o : Option Int) : Option Int :=
  match o with
  | none => none
  | some v => if v = 0 then none else some v

/-- Best-effort audit-log insert: on failure the database is unchanged and
no error is surfaced (the server only logs it). -/
def tryAudit (env : Env) (db : DB) (row : AuditRow) : DB :=
  if env.auditInsertFails then db
  else { db with audit_logs := db.audit_logs ++ [row] }

/-- Best-effort notification insert: on failure the database is unchanged
and no error is surfaced (the server only logs it). -/
def tryNotif (env : Env) (db : DB) (row : NotificationRow) : DB :=
  if env.notifInsertFails then db
  else { db with notifications := db.notifications ++ [row] }

/-- The shared preamble of every /api/admin route: require a Bearer header
(else 401), resolve the token (else 401), fetch the caller profile row and
require role admin (else 403 with the per-route message). -/
def adminGate (db : DB) (a : AuthCtx) (forbiddenMsg : String) : Except HResp Nat :=
  if a.hasBearer = false then
    Except.error ⟨401, RBody.jsonError ("Missing Authorization header")⟩
  else
    match a.tokenUser with
    | none => Except.error ⟨401, RBody.jsonError ("Invalid token")⟩
    | some uid =>
      match db.profiles.find? (fun p => p.id == uid) with
      | none => Except.error ⟨403, RBody.jsonError forbiddenMsg⟩
      | some p =>
        if p.role = "admin" then Except.ok uid
        else Except.error ⟨403, RBody.jsonError forbiddenMsg⟩

/-- The role recorded for a user id, if a profile row exists. -/
def roleOf (db : DB) (uid : Nat) : Option String :=
  (db.profiles.find? (fun p => p.id == uid)).map (fun p => p.role)

/-- Insert into public.profiles, enforcing the PRIMARY KEY (id) and
UNIQUE (employee_id) constraints of the migration; none is the constraint
violation the caller receives as an error object. -/
def insertProfile (db : DB) (row : ProfileRow) : Option DB :=
  if db.profiles.any (fun p => p.id == row.id || p.employee_id == row.employee_id) then
    none
  else
    some { db with profiles := db.profiles ++ [row] }

/-- POST /api/admin/add-employee.  A successful auth.admin.createUser call
inserts into auth.users and thereby fires the on_auth_user_created trigger
of the migration, whose handle_new_user function inserts the base profile
row from the signup metadata just supplied (employee_id and full_name from
the metadata, role left to the migration default employee); the trigger
also inserts into user_roles, a table no modelled claim touches.  A trigger
failure aborts the auth-user creation and is therefore part of the none
case of createUserResult.  The handler then attempts its own enriched
profiles insert, whose failure (a constraint violation against the
trigger-created row, or a client-side failure modelled by the env flag) is
only logged. -/
def addEmployeeH (env : Env) (db : DB) (a : AuthCtx) (b : AddEmployeeBody) :
    HResp × DB :=
  match adminGate db a ("Forbidden: admin role required") with
  | Except.error e => (e, db)
  | Except.ok requesterId =>
    if strBlank b.employee_id || strBlank b.full_name || strBlank b.email then
      (⟨400, RBody.jsonError ("Missing required fields")⟩, db)
    else
      let eid := b.employee_id.getD ("")
      let email := b.email.getD ("")
      let name := b.full_name.getD ("")
      match db.profiles.find? (fun p => p.employee_id == eid) with
      | some _ => (⟨409, RBody.jsonError ("Employee ID already exists")⟩, db)
      | none =>
        match db.profiles.find? (fun p => p.email == email) with
        | some _ => (⟨409, RBody.jsonError ("Email already exists")⟩, db)
        | none =>
          match env.createUserResult with
          | none => (⟨500, RBody.jsonError ("Failed to create auth user")⟩, db)
          | some userId =>
            let dbT := { db with profiles := db.profiles ++
              [{ id := userId, employee_id := eid, email := email,
                 full_name := some name, phone := none, department := none,
                 designation := none, basic_salary := none,
                 role := "employee" }] }
            let db1 :=
              if env.profileInsertFails then dbT
              else
                match insertProfile dbT
                  { id := userId, employee_id := eid, email := email,
                    full_name := some name, phone := orNullStr b.phone,
                    department := orNullStr b.department,
                    designation := orNullStr b.designation,
                    basic_salary := orNullInt b.basic_salary,
                    role := "employee" } with
                | none => dbT
                | some db2 => db2
            let db2 := tryAudit env db1 ⟨"create_employee", requesterId, userId⟩
            let db3 := tryNotif env db2
              ⟨userId, "Account created",
               "Your account was created. Use the temporary password provided by HR.",
               false⟩
            (⟨200, RBody.addEmployeeOk userId env.tempPassword⟩, db3)

/-- The notification message built by the leave-action handler. -/
def leaveNotifMessage (action : String) (comment : Option String) : String :=
  "Your leave request has been " ++ action ++ "." ++
    (match orNullStr comment with
     | some c => " Admin comment: " ++ c
     | none => "")

/-- POST /api/admin/leave-action. -/
def leaveActionH (env : Env) (db : DB) (a : AuthCtx) (b : LeaveActionBody) :
    HResp × DB :=
  match adminGate db a ("Forbidden") with
  | Except.error e => (e, db)
  | Except.ok adminId =>
    match b.leave_id, b.action with
    | some lid, some act =>
      if lid = 0 then (⟨400, RBody.jsonError ("Invalid payload")⟩, db)
      else if act = "approved" ∨ act = "rejected" then
        match db.leave_requests.find? (fun r => r.id == lid) with
        | none => (⟨404, RBody.jsonError ("Leave request not found")⟩, db)
        | some r =>
          let updated : LeaveRow :=
            { r with status := act, admin_comments := orNullStr b.admin_comment,
                     reviewed_by := some adminId }
          let db1 := { db with leave_requests := (db.leave_requests.map
            (fun x => if x.id = lid then
              { x with status := act, admin_comments := orNullStr b.admin_comment,
                       reviewed_by := some adminId }
              else x)) }
          let title := if act = "approved" then "Leave Approved" else "Leave Rejected"
          let db2 := tryNotif env db1
            ⟨updated.user_id, title, leaveNotifMessage act b.admin_comment, false⟩
          let db3 := tryAudit env db2 ⟨title, adminId, updated.user_id⟩
          (⟨200, RBody.leaveOk updated⟩, db3)
      else (⟨400, RBody.jsonError ("Invalid payload")⟩, db)
    | _, _ => (⟨400, RBody.jsonError ("Invalid payload")⟩, db)

/-- GET /api/admin/leaves (profile join and ordering omitted). -/
def getLeavesH (db : DB) (a : AuthCtx) : HResp × DB :=
  match adminGate db a ("Forbidden") with
  | Except.error e => (e, db)
  | Except.ok _ => (⟨200, RBody.dataLeaves db.leave_requests⟩, db)

/-- The notification message built by the payroll handler. -/
def payrollNotifMessage (m y : Nat) : String :=
  "Payroll for " ++ toString m ++ "/" ++ toString y ++ " has been processed."

/-- POST /api/admin/payroll.  If a row for (user_id, month, year) already
exists the handler updates its writable columns in place, otherwise it
inserts a new row; the database recomputes the generated net_salary column
either way. -/
def payrollH (env : Env) (db : DB) (a : AuthCtx) (b : PayrollBody) :
    HResp × DB :=
  match adminGate db a ("Forbidden") with
  | Except.error e => (e, db)
  | Except.ok adminId =>
    match b.user_id, b.month, b.year, b.basic_salary with
    | some uid, some m, some y, some bs =>
      if uid = 0 ∨ m = 0 ∨ y = 0 then
        (⟨400, RBody.jsonError ("Missing required fields")⟩, db)
      else
        let alw := b.allowances.getD 0
        let ded := b.deductions.getD 0
        match db.payroll.find? (fun r => r.user_id == uid && r.month == m && r.year == y) with
        | some existing =>
          let updated : PayrollRow :=
            { existing with basic_salary := bs, allowances := some alw,
                            deductions := some ded, net_salary := bs + alw - ded }
          let db1 := { db with payroll := (db.payroll.map
            (fun x => if x.id = existing.id then
              { x with basic_salary := bs, allowances := some alw,
                       deductions := some ded, net_salary := bs + alw - ded }
              else x)) }
          let db2 := tryAudit env db1 ⟨"Payroll Updated", adminId, uid⟩
          let db3 := tryNotif env db2
            ⟨uid, "Payroll Updated", payrollNotifMessage m y, false⟩
          (⟨200, RBody.payrollOk updated⟩, db3)
        | none =>
          let created : PayrollRow :=
            { id := env.freshPayrollId, user_id := uid, month := m, year := y,
              basic_salary := bs, allowances := some alw, deductions := some ded,
              net_salary := bs + alw - ded, payment_status := "pending" }
          let db1 := { db with payroll := db.payroll ++ [created] }
          let db2 := tryAudit env db1 ⟨"Payroll Created", adminId, uid⟩
          let db3 := tryNotif env db2
            ⟨uid, "Payroll Updated", payrollNotifMessage m y, false⟩
          (⟨200, RBody.payrollOk created⟩, db3)
    | _, _, _, _ => (⟨400, RBody.jsonError ("Missing required fields")⟩, db)

/-- GET /api/admin/payrolls (profile join and ordering omitted). -/
def getPayrollsH (db : DB) (a : AuthCtx) : HResp × DB :=
  match adminGate db a ("Forbidden") with
  | Except.error e => (e, db)
  | Except.ok _ => (⟨200, RBody.dataPayrolls db.payroll⟩, db)

/-- GET /api/admin/profiles. -/
def getProfilesH (db : DB) (a : AuthCtx) : HResp × DB :=
  match adminGate db a ("Forbidden") with
  | Except.error e => (e, db)
  | Except.ok _ =>
    (⟨200, RBody.dataProfiles (db.profiles.map
      (fun p => ⟨p.id, p.full_name, p.employee_id⟩))⟩, db)

/-- GET /api/admin/attendance?date=... -/
def getAttendanceH (db : DB) (a : AuthCtx) (dateQ : Option String) : HResp × DB :=
  match adminGate db a ("Forbidden") with
  | Except.error e => (e, db)
  | Except.ok _ =>
    if strBlank dateQ then (⟨400, RBody.jsonError ("Missing date query param")⟩, db)
    else
      (⟨200, RBody.dataAttendance
        (db.attendance.filter (fun r => r.date == dateQ.getD ("")))⟩, db)

/-- POST /api/admin/notifications.  Here the insert is the primary
mutation: its failure is surfaced as a 500. -/
def postNotificationH (env : Env) (db : DB) (a : AuthCtx) (b : NotificationBody) :
    HResp × DB :=
  match adminGate db a ("Forbidden") with
  | Except.error e => (e, db)
  | Except.ok _ =>
    if natFalsy b.user_id || strBlank b.title || strBlank b.message then
      (⟨400, RBody.jsonError ("Missing fields")⟩, db)
    else if env.notifInsertFails then
      (⟨500, RBody.jsonError ("Failed to create notification")⟩, db)
    else
      (⟨200, RBody.successOnly⟩,
       { db with notifications := db.notifications ++
         [⟨b.user_id.getD 0, b.title.getD (""), b.message.getD (""), false⟩] })

/-- POST /api/admin/update-role. -/
def updateRoleH (env : Env) (db : DB) (a : AuthCtx) (b : UpdateRoleBody) :
    HResp × DB :=
  match adminGate db a ("Forbidden: admin role required") with
  | Except.error e => (e, db)
  | Except.ok adminId =>
    match b.user_id, b.role with
    | some uid, some newRole =>
      if uid = 0 ∨ ¬(newRole = "admin" ∨ newRole = "employee") then
        (⟨400, RBody.jsonError ("Invalid payload: user_id and role (admin/employee) required")⟩, db)
      else
        match db.profiles.find? (fun p => p.id == uid) with
        | none => (⟨404, RBody.jsonError ("User not found")⟩, db)
        | some p =>
          let updated : ProfileRow := { p with role := newRole }
          let db1 := { db with profiles := (db.profiles.map
            (fun x => if x.id = uid then { x with role := newRole } else x)) }
          let db2 := tryAudit env db1 ⟨"Role Updated", adminId, uid⟩
          (⟨200, RBody.roleOk updated⟩, db2)
    | _, _ =>
      (⟨400, RBody.jsonError ("Invalid payload: user_id and role (admin/employee) required")⟩, db)

/-- A request to one of the admin routes of the privileged service. -/
inductive Request where
  | addEmployee (a : AuthCtx) (b : AddEmployeeBody)
  | leaveAction (a : AuthCtx) (b : LeaveActionBody)
  | getLeaves (a : AuthCtx)
  | payroll (a : AuthCtx) (b : PayrollBody)
  | getPayrolls (a : AuthCtx)
  | getProfiles (a : AuthCtx)
  | getAttendance (a : AuthCtx) (dateQ : Option String)
  | postNotification (a : AuthCtx) (b : NotificationBody)
  | updateRole (a : AuthCtx) (b : UpdateRoleBody)
deriving DecidableEq

/-- The authentication context carried by a request. -/
def Request.auth : Request → AuthCtx
  | .addEmployee a _ => a
  | .leaveAction a _ => a
  | .getLeaves a => a
  | .payroll a _ => a
  | .getPayrolls a => a
  | .getProfiles a => a
  | .getAttendance a _ => a
  | .postNotification a _ => a
  | .updateRole a _ => a

/-- Dispatch of the admin service. -/
def handle (env : Env) (db : DB) : Request → HResp × DB
  | .addEmployee a b => addEmployeeH env db a b
  | .leaveAction a b => leaveActionH env db a b
  | .getLeaves a => getLeavesH db a
  | .payroll a b => payrollH env db a b
  | .getPayrolls a => getPayrollsH db a
  | .getProfiles a => getProfilesH db a
  | .getAttendance a dq => getAttendanceH db a dq
  | .postNotification a b => postNotificationH env db a b
  | .updateRole a b => updateRoleH env db a b

/-- The signup metadata assembled by AuthContext.signUp; the role argument
of the function is ignored in favour of the hardcoded admin role. -/
structure SignUpMetadata where
  emailRedirectTo : String
  employee_id : String
  full_name : String
  role : String
deriving DecidableEq

/-- AuthContext.signUp: the options object passed to the auth service. -/
def signUp (origin email password employeeId fullName : String)
    (role : String) : SignUpMetadata :=
  let redirectUrl := origin ++ "/"
  let enforcedRole := "admin"
  { emailRedirectTo := redirectUrl, employee_id := employeeId,
    full_name := fullName, role := enforcedRole }

/-- Insert into public.attendance, enforcing the UNIQUE (user_id, date)
constraint of the migration; 23505 is the unique-violation error code the
client library surfaces. -/
def insertAttendance (db : DB) (row : AttendanceRow) : Except String DB :=
  if db.attendance.any (fun r => r.user_id == row.user_id && r.date == row.date) then
    Except.error ("23505")
  else
    Except.ok { db with attendance := db.attendance ++ [row] }

/-- handleCheckIn of the employee attendance page: insert a present row for
today; on a unique violation show the already-checked-in toast.  The first
component is the error toast description, none meaning success. -/
def handleCheckIn (db : DB) (userId : Nat) (today nowTs : String)
    (freshId : Nat) : Option String × DB :=
  match insertAttendance db ⟨freshId, userId, today, some nowTs, none, "present"⟩ with
  | Except.error code =>
    (some (if code = "23505" then "Already checked in today" else "Failed to check in"), db)
  | Except.ok db2 => (none, db2)

/-- Every stored payroll row satisfies the generated-column equation. -/
def NetInv (db : DB) : Prop :=
  ∀ r ∈ db.payroll,
    r.net_salary = r.basic_salary + r.allowances.getD 0 - r.deductions.getD 0

/-- At most one attendance row per (user_id, date): the UNIQUE constraint. -/
def AttUnique (db : DB) : Prop :=
  db.attendance.Pairwise (fun r1 r2 => ¬(r1.user_id = r2.user_id ∧ r1.date = r2.date))

/-- The business tables not touched by the best-effort side effects. -/
def coreTables (db : DB) :
    List ProfileRow × List AttendanceRow × List LeaveRow × List PayrollRow :=
  (db.profiles, db.attendance, db.leave_requests, db.payroll)

/-- An environment with the best-effort inserts forced to succeed. -/
def envOk (env : Env) : Env :=
  { env with auditInsertFails := false, notifInsertFails := false }

/- Concrete fixtures used by witnesses and counterexamples. -/

def adminProfile : ProfileRow :=
  ⟨9, "EMP-9", "admin@dayflow.test", some ("Admin"), none, none, none, none, "admin"⟩

def employeeProfile : ProfileRow :=
  ⟨1, "EMP-1", "emp@dayflow.test", some ("Emp"), none, none, none, none, "employee"⟩

def adminAuth : AuthCtx := ⟨true, some 9⟩

def env0 : Env := ⟨"tmpPw1A", some 42, false, false, false, 77⟩

/- Projection lemmas for the best-effort inserts. -/

theorem tryAudit_core (env : Env) (db : DB) (row : AuditRow) :
    coreTables (tryAudit env db row) = coreTables db := by
  unfold tryAudit coreTables; split <;> rfl

theorem tryNotif_core (env : Env) (db : DB) (row : NotificationRow) :
    coreTables (tryNotif env db row) = coreTables db := by
  unfold tryNotif coreTables; split <;> rfl

theorem tryAudit_payroll (env : Env) (db : DB) (row : AuditRow) :
    (tryAudit env db row).payroll = db.payroll := by
  unfold tryAudit; split <;> rfl

theorem tryNotif_payroll (env : Env) (db : DB) (row : NotificationRow) :
    (tryNotif env db row).payroll = db.payroll := by
  unfold tryNotif; split <;> rfl

theorem tryAudit_leaves (env : Env) (db : DB) (row : AuditRow) :
    (tryAudit env db row).leave_requests = db.leave_requests := by
  unfold tryAudit; split <;> rfl

theorem tryNotif_leaves (env : Env) (db : DB) (row : NotificationRow) :
    (tryNotif env db row).leave_requests = db.leave_requests := by
  unfold tryNotif; split <;> rfl

theorem tryAudit_notifications (env : Env) (db : DB) (row : AuditRow) :
    (tryAudit env db row).notifications = db.notifications := by
  unfold tryAudit; split <;> rfl

theorem tryAudit_profiles (env : Env) (db : DB) (row : AuditRow) :
    (tryAudit env db row).profiles = db.profiles := by
  unfold tryAudit; split <;> rfl

theorem tryNotif_profiles (env : Env) (db : DB) (row : NotificationRow) :
    (tryNotif env db row).profiles = db.profiles := by
  unfold tryNotif; split <;> rfl

/- Lemmas about the shared authorization gate. -/

theorem adminGate_forbidden (db : DB) (a : AuthCtx) (msg : String) (uid : Nat)
    (hb : a.hasBearer = true) (ht : a.tokenUser = some uid)
    (hr : roleOf db uid ≠ some ("admin")) :
    adminGate db a msg = Except.error ⟨403, RBody.jsonError msg⟩ := by
  unfold adminGate
  unfold roleOf at hr
  cases hfind : db.profiles.find? (fun p => p.id == uid) with
  | none => simp [hb, ht, hfind]
  | some p =>
    have hprole : ¬ p.role = "admin" := by
      intro hcontra
      apply hr
      rw [hfind]
      simp [hcontra]
    simp [hb, ht, hfind, hprole]

theorem adminGate_error_shape (db : DB) (a : AuthCtx) (msg : String) (e : HResp)
    (h : adminGate db a msg = Except.error e) : ∃ s, e.body = RBody.jsonError s := by
  unfold adminGate at h
  split at h
  · cases h; exact ⟨_, rfl⟩
  · split at h
    · cases h; exact ⟨_, rfl⟩
    · split at h
      · cases h; exact ⟨_, rfl⟩
      · split at h
        · cases h
        · cases h; exact ⟨_, rfl⟩

def dbEmployeeOnly : DB := ⟨[employeeProfile], [], [], [], [], []⟩

/-- C8: for every self-registration through the SPA signUp function, the
role stored in the new account signup metadata is admin, regardless of the
role argument passed to signUp. -/
theorem signUp_role_always_admin
    (origin email password employeeId fullName roleArg : String) :
    (signUp origin email password employeeId fullName roleArg).role = "admin" := rfl

/-- C3: on every /api/admin route, a request carrying a valid bearer token
whose profile row is absent or whose role differs from admin receives HTTP
403 and mutates no table. -/
theorem admin_routes_reject_non_admin (env : Env) (db : DB) (req : Request)
    (uid : Nat) (hb : req.auth.hasBearer = true)
    (ht : req.auth.tokenUser = some uid)
    (hr : roleOf db uid ≠ some ("admin")) :
    (handle env db req).1.status = 403 ∧ (handle env db req).2 = db := by
  cases req with
  | addEmployee a b =>
    simp only [Request.auth] at hb ht
    have hg := adminGate_forbidden db a ("Forbidden: admin role required") uid hb ht hr
    simp [handle, addEmployeeH, hg]
  | leaveAction a b =>
    simp only [Request.auth] at hb ht
    have hg := adminGate_forbidden db a ("Forbidden") uid hb ht hr
    simp [handle, leaveActionH, hg]
  | getLeaves a =>
    simp only [Request.auth] at hb ht
    have hg := adminGate_forbidden db a ("Forbidden") uid hb ht hr
    simp [handle, getLeavesH, hg]
  | payroll a b =>
    simp only [Request.auth] at hb ht
    have hg := adminGate_forbidden db a ("Forbidden") uid hb ht hr
    simp [handle, payrollH, hg]
  | getPayrolls a =>
    simp only [Request.auth] at hb ht
    have hg := adminGate_forbidden db a ("Forbidden") uid hb ht hr
    simp [handle, getPayrollsH, hg]
  | getProfiles a =>
    simp only [Request.auth] at hb ht
    have hg := adminGate_forbidden db a ("Forbidden") uid hb ht hr
    simp [handle, getProfilesH, hg]
  | getAttendance a dq =>
    simp only [Request.auth] at hb ht
    have hg := adminGate_forbidden db a ("Forbidden") uid hb ht hr
    simp [handle, getAttendanceH, hg]
  | postNotification a b =>
    simp only [Request.auth] at hb ht
    have hg := adminGate_forbidden db a ("Forbidden") uid hb ht hr
    simp [handle, postNotificationH, hg]
  | updateRole a b =>
    simp only [Request.auth] at hb ht
    have hg := adminGate_forbidden db a ("Forbidden: admin role required") uid hb ht hr
    simp [handle, updateRoleH, hg]

/-- C3 witness: a valid token of an employee-role caller hitting GET
/api/admin/leaves gets 403 and changes nothing. -/
theorem admin_routes_reject_non_admin_witness :
    (handle env0 dbEmployeeOnly (Request.getLeaves ⟨true, some 1⟩)).1.status = 403 ∧
    (handle env0 dbEmployeeOnly (Request.getLeaves ⟨true, some 1⟩)).2 = dbEmployeeOnly :=
  admin_routes_reject_non_admin env0 dbEmployeeOnly
    (Request.getLeaves ⟨true, some 1⟩) 1 rfl rfl (by decide)

/- Payroll-table frame lemmas: every handler except the payroll route
leaves the payroll table unchanged and never answers with a payroll body. -/

theorem addEmployeeH_payroll_frame (env : Env) (db : DB) (a : AuthCtx)
    (b : AddEmployeeBody) :
    (addEmployeeH env db a b).2.payroll = db.payroll ∧
    ∀ p, (addEmployeeH env db a b).1.body ≠ RBody.payrollOk p := by
  unfold addEmployeeH
  split
  next e heq =>
    obtain ⟨s, hs⟩ := adminGate_error_shape db a _ e heq
    exact ⟨rfl, fun p hp => by simp [hs] at hp⟩
  next rid heq =>
    refine ⟨?_, fun p hp => ?_⟩
    · repeat' (first | simp [tryNotif_payroll, tryAudit_payroll, insertProfile] | split)
    · repeat' (first | simp [insertProfile] at hp | split at hp)

theorem leaveActionH_payroll_frame (env : Env) (db : DB) (a : AuthCtx)
    (b : LeaveActionBody) :
    (leaveActionH env db a b).2.payroll = db.payroll ∧
    ∀ p, (leaveActionH env db a b).1.body ≠ RBody.payrollOk p := by
  unfold leaveActionH
  split
  next e heq =>
    obtain ⟨s, hs⟩ := adminGate_error_shape db a _ e heq
    exact ⟨rfl, fun p hp => by simp [hs] at hp⟩
  next rid heq =>
    refine ⟨?_, fun p hp => ?_⟩
    · repeat' (first | split | simp [tryNotif_payroll, tryAudit_payroll])
    · repeat' (first | split at hp | simp at hp)

theorem getLeavesH_payroll_frame (db : DB) (a : AuthCtx) :
    (getLeavesH db a).2.payroll = db.payroll ∧
    ∀ p, (getLeavesH db a).1.body ≠ RBody.payrollOk p := by
  unfold getLeavesH
  split
  next e heq =>
    obtain ⟨s, hs⟩ := adminGate_error_shape db a _ e heq
    exact ⟨rfl, fun p hp => by simp [hs] at hp⟩
  next rid heq =>
    exact ⟨rfl, fun p hp => by simp at hp⟩

theorem getPayrollsH_payroll_frame (db : DB) (a : AuthCtx) :
    (getPayrollsH db a).2.payroll = db.payroll ∧
    ∀ p, (getPayrollsH db a).1.body ≠ RBody.payrollOk p := by
  unfold getPayrollsH
  split
  next e heq =>
    obtain ⟨s, hs⟩ := adminGate_error_shape db a _ e heq
    exact ⟨rfl, fun p hp => by simp [hs] at hp⟩
  next rid heq =>
    exact ⟨rfl, fun p hp => by simp at hp⟩

theorem getProfilesH_payroll_frame (db : DB) (a : AuthCtx) :
    (getProfilesH db a).2.payroll = db.payroll ∧
    ∀ p, (getProfilesH db a).1.body ≠ RBody.payrollOk p := by
  unfold getProfilesH
  split
  next e heq =>
    obtain ⟨s, hs⟩ := adminGate_error_shape db a _ e heq
    exact ⟨rfl, fun p hp => by simp [hs] at hp⟩
  next rid heq =>
    exact ⟨rfl, fun p hp => by simp at hp⟩

theorem getAttendanceH_payroll_frame (db : DB) (a : AuthCtx) (dq : Option String) :
    (getAttendanceH db a dq).2.payroll = db.payroll ∧
    ∀ p, (getAttendanceH db a dq).1.body ≠ RBody.payrollOk p := by
  unfold getAttendanceH
  split
  next e heq =>
    obtain ⟨s, hs⟩ := adminGate_error_shape db a _ e heq
    exact ⟨rfl, fun p hp => by simp [hs] at hp⟩
  next rid heq =>
    refine ⟨?_, fun p hp => ?_⟩
    · repeat' (first | split | simp)
    · repeat' (first | split at hp | simp at hp)

theorem postNotificationH_payroll_frame (env : Env) (db : DB) (a : AuthCtx)
    (b : NotificationBody) :
    (postNotificationH env db a b).2.payroll = db.payroll ∧
    ∀ p, (postNotificationH env db a b).1.body ≠ RBody.payrollOk p := by
  unfold postNotificationH
  split
  next e heq =>
    obtain ⟨s, hs⟩ := adminGate_error_shape db a _ e heq
    exact ⟨rfl, fun p hp => by simp [hs] at hp⟩
  next rid heq =>
    refine ⟨?_, fun p hp => ?_⟩
    · repeat' (first | split | simp)
    · repeat' (first | split at hp | simp at hp)

theorem updateRoleH_payroll_frame (env : Env) (db : DB) (a : AuthCtx)
    (b : UpdateRoleBody) :
    (updateRoleH env db a b).2.payroll = db.payroll ∧
    ∀ p, (updateRoleH env db a b).1.body ≠ RBody.payrollOk p := by
  unfold updateRoleH
  split
  next e heq =>
    obtain ⟨s, hs⟩ := adminGate_error_shape db a _ e heq
    exact ⟨rfl, fun p hp => by simp [hs] at hp⟩
  next rid heq =>
    refine ⟨?_, fun p hp => ?_⟩
    · repeat' (first | split | simp [tryAudit_payroll])
    · repeat' (first | split at hp | simp at hp)

/-- The payroll handler: the stored invariant is preserved and any payroll
record in the response satisfies the generated-column equation. -/
theorem payrollH_netInv (env : Env) (db : DB) (a : AuthCtx) (b : PayrollBody)
    (h : NetInv db) :
    NetInv (payrollH env db a b).2 ∧
    ∀ p, (payrollH env db a b).1.body = RBody.payrollOk p →
      p.net_salary = p.basic_salary + p.allowances.getD 0 - p.deductions.getD 0 := by
  unfold payrollH
  split
  next e heq =>
    obtain ⟨s, hs⟩ := adminGate_error_shape db a _ e heq
    exact ⟨h, fun p hp => by simp [hs] at hp⟩
  next rid heq =>
    split
    · split
      · exact ⟨h, fun p hp => by simp at hp⟩
      · split
        next existing hfind =>
          constructor
          · intro r hr
            simp only [tryNotif_payroll, tryAudit_payroll] at hr
            simp only [List.mem_map] at hr
            obtain ⟨x, hx, hxr⟩ := hr
            by_cases hid : x.id = existing.id
            · rw [← hxr]
              simp [hid]
            · rw [← hxr]
              simp only [hid, if_false]
              exact h x hx
          · intro p hp
            simp only [HResp.mk.injEq] at hp
            have hb2 := hp
            simp at hb2
            rw [← hb2]
            simp
        next hfind =>
          constructor
          · intro r hr
            simp only [tryNotif_payroll, tryAudit_payroll] at hr
            simp only [List.mem_append, List.mem_singleton] at hr
            cases hr with
            | inl hin => exact h r hin
            | inr hnew => rw [hnew]; simp
          · intro p hp
            have hb2 := hp
            simp at hb2
            rw [← hb2]
            simp
    · exact ⟨h, fun p hp => by simp at hp⟩

/-- C1: every stored payroll row satisfies
net_salary = basic_salary + allowances - deductions (missing allowances and
deductions read as 0); the invariant is preserved by every admin route, and
any payroll record returned by POST /api/admin/payroll satisfies the same
equation. -/
theorem payroll_net_salary_invariant (env : Env) (db : DB) (req : Request)
    (h : NetInv db) :
    NetInv (handle env db req).2 ∧
    ∀ p, (handle env db req).1.body = RBody.payrollOk p →
      p.net_salary = p.basic_salary + p.allowances.getD 0 - p.deductions.getD 0 := by
  cases req with
  | addEmployee a b =>
    have hf := addEmployeeH_payroll_frame env db a b
    refine ⟨?_, fun p hp => absurd hp (hf.2 p)⟩
    intro r hr
    simp only [handle] at hr
    rw [hf.1] at hr
    exact h r hr
  | leaveAction a b =>
    have hf := leaveActionH_payroll_frame env db a b
    refine ⟨?_, fun p hp => absurd hp (hf.2 p)⟩
    intro r hr
    simp only [handle] at hr
    rw [hf.1] at hr
    exact h r hr
  | getLeaves a =>
    have hf := getLeavesH_payroll_frame db a
    refine ⟨?_, fun p hp => absurd hp (hf.2 p)⟩
    intro r hr
    simp only [handle] at hr
    rw [hf.1] at hr
    exact h r hr
  | payroll a b => exact payrollH_netInv env db a b h
  | getPayrolls a =>
    have hf := getPayrollsH_payroll_frame db a
    refine ⟨?_, fun p hp => absurd hp (hf.2 p)⟩
    intro r hr
    simp only [handle] at hr
    rw [hf.1] at hr
    exact h r hr
  | getProfiles a =>
    have hf := getProfilesH_payroll_frame db a
    refine ⟨?_, fun p hp => absurd hp (hf.2 p)⟩
    intro r hr
    simp only [handle] at hr
    rw [hf.1] at hr
    exact h r hr
  | getAttendance a dq =>
    have hf := getAttendanceH_payroll_frame db a dq
    refine ⟨?_, fun p hp => absurd hp (hf.2 p)⟩
    intro r hr
    simp only [handle] at hr
    rw [hf.1] at hr
    exact h r hr
  | postNotification a b =>
    have hf := postNotificationH_payroll_frame env db a b
    refine ⟨?_, fun p hp => absurd hp (hf.2 p)⟩
    intro r hr
    simp only [handle] at hr
    rw [hf.1] at hr
    exact h r hr
  | updateRole a b =>
    have hf := updateRoleH_payroll_frame env db a b
    refine ⟨?_, fun p hp => absurd hp (hf.2 p)⟩
    intro r hr
    simp only [handle] at hr
    rw [hf.1] at hr
    exact h r hr

def payrollRow0 : PayrollRow := ⟨5, 1, 1, 2024, 100, some 10, some 5, 105, "pending"⟩

def dbPayroll : DB := ⟨[adminProfile, employeeProfile], [], [], [payrollRow0], [], []⟩

def payrollBodySame : PayrollBody := ⟨some 1, some 1, some 2024, some 200, some 20, some 10⟩

def dbDecided : DB :=
  ⟨[adminProfile, employeeProfile], [],
   [⟨1, 1, "paid", "2024-01-01", "2024-01-02", none, "approved", none, some 9⟩],
   [], [], []⟩

def pendingRow : LeaveRow := ⟨2, 1, "sick", "2024-02-01", "2024-02-02", none, "pending", none, none⟩

def dbPending : DB := ⟨[adminProfile, employeeProfile], [], [pendingRow], [], [], []⟩

/-- C1 witness: the invariant holds after a concrete payroll update request
over a database satisfying it. -/
theorem payroll_net_salary_invariant_witness :
    NetInv (handle env0 dbPayroll (Request.payroll adminAuth payrollBodySame)).2 :=
  (payroll_net_salary_invariant env0 dbPayroll (Request.payroll adminAuth payrollBodySame)
    (by unfold NetInv; decide)).1

/-- C2 counterexample: a leave request whose status is already approved is
changed to rejected by a later POST /api/admin/leave-action call, which
succeeds with 200; the claim that an approved or rejected status can never
be changed by any sequence of calls is false. -/
theorem leave_decided_status_can_change :
    (dbDecided.leave_requests.map (fun r => r.status)) = [("approved" : String)] ∧
    (leaveActionH env0 dbDecided adminAuth ⟨some 1, some ("rejected"), none⟩).1.status = 200 ∧
    ((leaveActionH env0 dbDecided adminAuth ⟨some 1, some ("rejected"), none⟩).2.leave_requests.map
      (fun r => r.status)) = [("rejected" : String)] := by
  exact ⟨by decide, by decide, by decide⟩

/-- C2 amended: a leave-action call never moves any status back to pending
(every row that is pending afterwards already existed unchanged before),
and a success response always carries status approved or rejected; however
an already approved or rejected status can be overwritten by a later call,
as the counterexample shows. -/
theorem leave_status_never_returns_to_pending (env : Env) (db : DB) (a : AuthCtx)
    (b : LeaveActionBody) :
    (∀ r ∈ (leaveActionH env db a b).2.leave_requests,
      r.status = "pending" → r ∈ db.leave_requests) ∧
    (∀ l, (leaveActionH env db a b).1.body = RBody.leaveOk l →
      l.status = "approved" ∨ l.status = "rejected") := by
  unfold leaveActionH
  split
  next e heq =>
    obtain ⟨s, hs⟩ := adminGate_error_shape db a _ e heq
    exact ⟨fun r hr _ => hr, fun l hl => by simp [hs] at hl⟩
  next adminId heq =>
    rcases hbl : b.leave_id with _ | lid
    · simp only [hbl]
      exact ⟨fun r hr _ => hr, fun l hl => by simp at hl⟩
    · rcases hba : b.action with _ | act
      · simp only [hbl, hba]
        exact ⟨fun r hr _ => hr, fun l hl => by simp at hl⟩
      · simp only [hbl, hba]
        split
        · exact ⟨fun r hr _ => hr, fun l hl => by simp at hl⟩
        · split
          next hact =>
            split
            next hfind =>
              exact ⟨fun r hr _ => hr, fun l hl => by simp at hl⟩
            next r0 hfind =>
              constructor
              · intro r hr hpend
                simp only [tryAudit_leaves, tryNotif_leaves] at hr
                simp only [List.mem_map] at hr
                obtain ⟨x, hx, hxr⟩ := hr
                by_cases hid : x.id = lid
                · rw [← hxr] at hpend
                  rw [if_pos hid] at hpend
                  simp at hpend
                  cases hact with
                  | inl h1 =>
                    rw [h1] at hpend
                    exact absurd hpend (by decide)
                  | inr h1 =>
                    rw [h1] at hpend
                    exact absurd hpend (by decide)
                · rw [← hxr]
                  rw [if_neg hid]
                  exact hx
              · intro l hl
                simp at hl
                subst hl
                cases hact with
                | inl h1 => left; simp [h1]
                | inr h1 => right; simp [h1]
          next hact =>
            exact ⟨fun r hr _ => hr, fun l hl => by simp at hl⟩

/-- C2 amended witness: a pending row untouched by an invalid action call is
still a row of the original table. -/
theorem leave_status_never_returns_to_pending_witness :
    pendingRow ∈ dbPending.leave_requests :=
  (leave_status_never_returns_to_pending env0 dbPending adminAuth
    ⟨some 2, some ("maybe"), none⟩).1 pendingRow (by decide) (by decide)

/-- C4 counterexample: POST /api/admin/payroll for a (user, month, year)
that already has a payroll row succeeds with 200 and updates the row in
place; it does not fail with a conflict error. -/
theorem payroll_existing_key_succeeds :
    (payrollH env0 dbPayroll adminAuth payrollBodySame).1.status = 200 ∧
    ¬ (payrollH env0 dbPayroll adminAuth payrollBodySame).1.status = 409 ∧
    (payrollH env0 dbPayroll adminAuth payrollBodySame).1.body =
      RBody.payrollOk ⟨5, 1, 1, 2024, 200, some 20, some 10, 210, "pending"⟩ ∧
    (payrollH env0 dbPayroll adminAuth payrollBodySame).2.payroll.length = 1 := by
  exact ⟨by decide, by decide, by decide, by decide⟩

/-- C4 amended: posting payroll for an existing (user_id, month, year) does
not create a second row and does not return a conflict: the existing row is
updated in place with 200, and no row has its id, user_id, month or year
changed by the operation. -/
theorem payroll_existing_key_updates_in_place (env : Env) (db : DB) (a : AuthCtx)
    (b : PayrollBody) (uid m y : Nat) (bs : Int) (adminId : Nat) (r : PayrollRow)
    (hg : adminGate db a ("Forbidden") = Except.ok adminId)
    (hu : b.user_id = some uid) (hm : b.month = some m) (hy : b.year = some y)
    (hbs : b.basic_salary = some bs)
    (hnz : ¬(uid = 0 ∨ m = 0 ∨ y = 0))
    (hfind : db.payroll.find?
      (fun x => x.user_id == uid && x.month == m && x.year == y) = some r) :
    (payrollH env db a b).1.status = 200 ∧
    (payrollH env db a b).2.payroll.length = db.payroll.length ∧
    List.Forall₂
      (fun x y0 => x.id = y0.id ∧ x.user_id = y0.user_id ∧
        x.month = y0.month ∧ x.year = y0.year)
      (payrollH env db a b).2.payroll db.payroll := by
  unfold payrollH
  rw [hg]
  simp only [hu, hm, hy, hbs]
  rw [if_neg hnz]
  rw [hfind]
  refine ⟨rfl, ?_, ?_⟩
  · simp [tryAudit_payroll, tryNotif_payroll]
  · simp only [tryAudit_payroll, tryNotif_payroll]
    rw [List.forall₂_map_left_iff]
    rw [List.forall₂_same]
    intro x hx
    split <;> exact ⟨rfl, rfl, rfl, rfl⟩

/-- C4 amended witness: the concrete update keeps the key of the existing
row and returns 200. -/
theorem payroll_existing_key_updates_in_place_witness :
    (payrollH env0 dbPayroll adminAuth payrollBodySame).1.status = 200 ∧
    (payrollH env0 dbPayroll adminAuth payrollBodySame).2.payroll.length =
      dbPayroll.payroll.length ∧
    List.Forall₂
      (fun x y0 => x.id = y0.id ∧ x.user_id = y0.user_id ∧
        x.month = y0.month ∧ x.year = y0.year)
      (payrollH env0 dbPayroll adminAuth payrollBodySame).2.payroll
      dbPayroll.payroll :=
  payroll_existing_key_updates_in_place env0 dbPayroll adminAuth payrollBodySame
    1 1 2024 200 9 payrollRow0 rfl rfl rfl rfl rfl (by decide) (by decide)

def attRow0 : AttendanceRow := ⟨3, 1, "2024-01-05", some ("t1"), none, "present"⟩

def dbAtt : DB := ⟨[adminProfile, employeeProfile], [attRow0], [], [], [], []⟩

/-- C5: the attendance table keeps at most one row per (user, date), and a
second check-in by the same user on the same date fails with the
already-checked-in toast and creates no second row. -/
theorem checkIn_unique_per_day (db : DB) (userId : Nat) (today nowTs : String)
    (freshId : Nat) (hu : AttUnique db) :
    AttUnique (handleCheckIn db userId today nowTs freshId).2 ∧
    ((∃ r ∈ db.attendance, r.user_id = userId ∧ r.date = today) →
      (handleCheckIn db userId today nowTs freshId).1 =
        some ("Already checked in today") ∧
      (handleCheckIn db userId today nowTs freshId).2 = db) := by
  cases hany : db.attendance.any (fun r => r.user_id == userId && r.date == today) with
  | true =>
    have hres : handleCheckIn db userId today nowTs freshId =
        (some ("Already checked in today"), db) := by
      unfold handleCheckIn insertAttendance
      rw [hany]
      rfl
    rw [hres]
    exact ⟨hu, fun _ => ⟨rfl, rfl⟩⟩
  | false =>
    have hres : handleCheckIn db userId today nowTs freshId =
        (none, { db with attendance := db.attendance ++
          [⟨freshId, userId, today, some nowTs, none, "present"⟩] }) := by
      unfold handleCheckIn insertAttendance
      rw [hany]
      rfl
    rw [hres]
    constructor
    · unfold AttUnique at hu ⊢
      show List.Pairwise _ (db.attendance ++
        [⟨freshId, userId, today, some nowTs, none, "present"⟩])
      rw [List.pairwise_append]
      refine ⟨hu, List.pairwise_singleton _ _, ?_⟩
      intro x hx y hy
      rw [List.mem_singleton] at hy
      subst hy
      intro hcontra
      have hfalse := List.any_eq_false.mp hany x hx
      apply hfalse
      simp [hcontra.1, hcontra.2]
    · intro hex
      exfalso
      obtain ⟨r, hr, h1, h2⟩ := hex
      have hfalse := List.any_eq_false.mp hany r hr
      apply hfalse
      simp [h1, h2]

/-- C5 witness: with one present row for user 1 on 2024-01-05, a second
check-in for that user and date is rejected with the toast and the table is
unchanged. -/
theorem checkIn_unique_per_day_witness :
    AttUnique (handleCheckIn dbAtt 1 "2024-01-05" "t2" 8).2 ∧
    (handleCheckIn dbAtt 1 "2024-01-05" "t2" 8).1 =
      some ("Already checked in today") ∧
    (handleCheckIn dbAtt 1 "2024-01-05" "t2" 8).2 = dbAtt := by
  have h := checkIn_unique_per_day dbAtt 1 "2024-01-05" "t2" 8
    (by unfold AttUnique; decide)
  exact ⟨h.1, h.2 ⟨attRow0, by decide, by decide, by decide⟩⟩

/-- C6: an admin posting leave_id with action approved and comment ok for an
existing leave request gets 200 with success and the updated leave whose
status is approved, the stored row becomes approved, and a notification row
for the requesting employee is inserted. -/
theorem leave_approval_notifies_and_succeeds (env : Env) (db : DB) (a : AuthCtx)
    (adminId lid : Nat) (r : LeaveRow)
    (hg : adminGate db a ("Forbidden") = Except.ok adminId)
    (hnz : ¬ lid = 0)
    (hfind : db.leave_requests.find? (fun x => x.id == lid) = some r)
    (hn : env.notifInsertFails = false) :
    (leaveActionH env db a ⟨some lid, some ("approved"), some ("ok")⟩).1.status = 200 ∧
    (leaveActionH env db a ⟨some lid, some ("approved"), some ("ok")⟩).1.body =
      RBody.leaveOk { r with status := "approved", admin_comments := some ("ok"),
                             reviewed_by := some adminId } ∧
    (∀ x ∈ (leaveActionH env db a ⟨some lid, some ("approved"), some ("ok")⟩).2.leave_requests,
      x.id = lid → x.status = "approved") ∧
    (⟨r.user_id, "Leave Approved",
      "Your leave request has been approved. Admin comment: ok", false⟩ : NotificationRow) ∈
      (leaveActionH env db a ⟨some lid, some ("approved"), some ("ok")⟩).2.notifications := by
  have hok : orNullStr (some ("ok")) = some ("ok") := by decide
  have hmsg : leaveNotifMessage ("approved") (some ("ok")) =
      "Your leave request has been approved. Admin comment: ok" := by decide
  unfold leaveActionH
  simp only [hg]
  rw [if_neg hnz]
  rw [if_pos (Or.inl trivial)]
  rw [hfind]
  refine ⟨rfl, ?_, ?_, ?_⟩
  · simp [hok]
  · intro x hx hxid
    simp only [tryAudit_leaves, tryNotif_leaves] at hx
    simp only [List.mem_map] at hx
    obtain ⟨x0, hx0, hxr⟩ := hx
    subst hxr
    by_cases hid2 : x0.id = lid
    · rw [if_pos hid2]
    · rw [if_neg hid2] at hxid
      exact absurd hxid hid2
  · simp only [tryAudit_notifications]
    unfold tryNotif
    simp [hn, hmsg, hok]

/-- C6 witness: the concrete approval of a pending request notifies the
employee and succeeds. -/
theorem leave_approval_notifies_and_succeeds_witness :
    (leaveActionH env0 dbPending adminAuth ⟨some 2, some ("approved"), some ("ok")⟩).1.status = 200 ∧
    (⟨1, "Leave Approved",
      "Your leave request has been approved. Admin comment: ok", false⟩ : NotificationRow) ∈
      (leaveActionH env0 dbPending adminAuth ⟨some 2, some ("approved"), some ("ok")⟩).2.notifications := by
  have h := leave_approval_notifies_and_succeeds env0 dbPending adminAuth 9 2 pendingRow
    rfl (by decide) rfl rfl
  exact ⟨h.1, h.2.2.2⟩

def envProfileFail : Env := ⟨"tmpPw1A", some 42, true, false, false, 77⟩

def addBody0 : AddEmployeeBody :=
  ⟨some ("EMP-2"), some ("New Person"), some ("new@dayflow.test"),
   some ("Engineering"), some ("Developer"), some 50000, some ("5551234")⟩

def triggerProfileRow : ProfileRow :=
  ⟨42, "EMP-2", "new@dayflow.test", some ("New Person"), none, none, none,
   none, "employee"⟩

/-- C9 counterexample: a successful add-employee call whose explicit
profile insert fails still leaves a profile row for the returned userId:
the row the signup trigger created (recognisable by its null department and
basic salary, although the request supplied both).  The claim that a 200
response does not guarantee a profile row for the returned userId is
false. -/
theorem addEmployee_success_has_trigger_profile_row :
    (addEmployeeH envProfileFail dbPayroll adminAuth addBody0).1 =
      ⟨200, RBody.addEmployeeOk 42 "tmpPw1A"⟩ ∧
    (addEmployeeH envProfileFail dbPayroll adminAuth addBody0).2.profiles.filter
      (fun p => p.id == 42) = [triggerProfileRow] := by
  exact ⟨by decide, by decide⟩

/-- C9 amended: POST /api/admin/add-employee returns 200 with userId and
tempPassword whether or not its explicit profile insert fails, the insert
error being only logged; but the on_auth_user_created trigger has already
inserted the base profile row for the new auth user, so after every
success a profile row for the returned userId does exist.  Only the
enriched handler insert (department, designation, basic salary, phone) is
not guaranteed: the profiles table gains exactly the trigger row. -/
theorem addEmployee_profile_insert_only_logged (env : Env) (db : DB)
    (a : AuthCtx) (b : AddEmployeeBody) (adminId newId : Nat)
    (hg : adminGate db a ("Forbidden: admin role required") = Except.ok adminId)
    (hv : (strBlank b.employee_id || strBlank b.full_name || strBlank b.email) = false)
    (hd1 : db.profiles.find? (fun p => p.employee_id == b.employee_id.getD ("")) = none)
    (hd2 : db.profiles.find? (fun p => p.email == b.email.getD ("")) = none)
    (hcu : env.createUserResult = some newId) :
    (addEmployeeH env db a b).1 = ⟨200, RBody.addEmployeeOk newId env.tempPassword⟩ ∧
    (addEmployeeH env db a b).2.profiles = db.profiles ++
      [{ id := newId, employee_id := b.employee_id.getD (""),
         email := b.email.getD (""), full_name := some (b.full_name.getD ("")),
         phone := none, department := none, designation := none,
         basic_salary := none, role := "employee" }] ∧
    (∃ p ∈ (addEmployeeH env db a b).2.profiles, p.id = newId) := by
  have hprof : (addEmployeeH env db a b).2.profiles = db.profiles ++
      [{ id := newId, employee_id := b.employee_id.getD (""),
         email := b.email.getD (""), full_name := some (b.full_name.getD ("")),
         phone := none, department := none, designation := none,
         basic_salary := none, role := "employee" }] := by
    unfold addEmployeeH
    simp [hg, hv, hd1, hd2, hcu, insertProfile,
      tryAudit_profiles, tryNotif_profiles]
  have hresp : (addEmployeeH env db a b).1 =
      ⟨200, RBody.addEmployeeOk newId env.tempPassword⟩ := by
    unfold addEmployeeH
    simp [hg, hv, hd1, hd2, hcu, insertProfile]
  refine ⟨hresp, hprof, ?_⟩
  rw [hprof]
  exact ⟨{ id := newId, employee_id := b.employee_id.getD (""),
           email := b.email.getD (""), full_name := some (b.full_name.getD ("")),
           phone := none, department := none, designation := none,
           basic_salary := none, role := "employee" }, by simp, rfl⟩

/-- C9 amended witness: the concrete creation with a failing explicit
insert returns 200 with the credentials while the profiles table gains
exactly the trigger-created base row. -/
theorem addEmployee_profile_insert_only_logged_witness :
    (addEmployeeH envProfileFail dbPayroll adminAuth addBody0).1 =
      ⟨200, RBody.addEmployeeOk 42 "tmpPw1A"⟩ ∧
    (addEmployeeH envProfileFail dbPayroll adminAuth addBody0).2.profiles =
      dbPayroll.profiles ++ [triggerProfileRow] := by
  have h := addEmployee_profile_insert_only_logged envProfileFail
    dbPayroll adminAuth addBody0 9 42 rfl rfl rfl rfl rfl
  exact ⟨h.1, h.2.1⟩

/-- C7: on the three privileged mutation routes, failure of the best-effort
audit-log or notification insert changes neither the HTTP response nor any
business table: the outcome equals the run in which both inserts succeed. -/
theorem best_effort_failures_invisible (env : Env) (db : DB) (a : AuthCtx)
    (b1 : AddEmployeeBody) (b2 : LeaveActionBody) (b3 : PayrollBody) :
    ((addEmployeeH env db a b1).1 = (addEmployeeH (envOk env) db a b1).1 ∧
     coreTables (addEmployeeH env db a b1).2 =
       coreTables (addEmployeeH (envOk env) db a b1).2) ∧
    ((leaveActionH env db a b2).1 = (leaveActionH (envOk env) db a b2).1 ∧
     coreTables (leaveActionH env db a b2).2 =
       coreTables (leaveActionH (envOk env) db a b2).2) ∧
    ((payrollH env db a b3).1 = (payrollH (envOk env) db a b3).1 ∧
     coreTables (payrollH env db a b3).2 =
       coreTables (payrollH (envOk env) db a b3).2) := by
  refine ⟨⟨?_, ?_⟩, ⟨?_, ?_⟩, ⟨?_, ?_⟩⟩
  · unfold addEmployeeH envOk
    repeat' (first | simp [tryAudit_core, tryNotif_core] | split)
  · unfold addEmployeeH envOk
    repeat' (first | simp [tryAudit_core, tryNotif_core] | split)
  · unfold leaveActionH envOk
    repeat' (first | simp [tryAudit_core, tryNotif_core] | split)
  · unfold leaveActionH envOk
    repeat' (first | simp [tryAudit_core, tryNotif_core] | split)
  · unfold payrollH envOk
    repeat' (first | simp [tryAudit_core, tryNotif_core] | split)
  · unfold payrollH envOk
    repeat' (first | simp [tryAudit_core, tryNotif_core] | split)

/-- The leave table after a leave-action call is either untouched or the
pointwise update of the targeted id. -/
theorem leaveActionH_leaves_shape (env : Env) (db : DB) (a : AuthCtx)
    (b : LeaveActionBody) :
    (leaveActionH env db a b).2.leave_requests = db.leave_requests ∨
    (∃ lid act adminId, b.leave_id = some lid ∧ b.action = some act ∧
      (leaveActionH env db a b).2.leave_requests = db.leave_requests.map
        (fun x => if x.id = lid then
          { x with status := act, admin_comments := orNullStr b.admin_comment,
                   reviewed_by := some adminId }
          else x)) := by
  unfold leaveActionH
  split
  next e heq => left; rfl
  next adminId heq =>
    rcases hbl : b.leave_id with _ | lid
    · left; simp [hbl]
    · rcases hba : b.action with _ | act
      · left; simp [hbl, hba]
      · simp only [hbl, hba]
        split
        · left; rfl
        · split
          next hact =>
            split
            next hfind => left; rfl
            next r0 hfind =>
              right
              exact ⟨lid, act, adminId, rfl, rfl,
                by simp [tryAudit_leaves, tryNotif_leaves]⟩
          next hact => left; rfl

/-- C10: a leave-action call changes only the status, admin_comments and
reviewed_by fields of the targeted row: every row keeps its id, user_id,
leave_type, start_date, end_date and remarks; rows whose id differs from
the targeted leave_id are entirely unchanged; and when a well-formed
request matches no row, the response is 404 and the database is unchanged. -/
theorem leaveAction_frame (env : Env) (db : DB) (a : AuthCtx) (b : LeaveActionBody) :
    List.Forall₂ (fun x y0 => x.id = y0.id ∧ x.user_id = y0.user_id ∧
        x.leave_type = y0.leave_type ∧ x.start_date = y0.start_date ∧
        x.end_date = y0.end_date ∧ x.remarks = y0.remarks)
      (leaveActionH env db a b).2.leave_requests db.leave_requests ∧
    (∀ lid, b.leave_id = some lid →
      List.Forall₂ (fun x y0 => ¬ y0.id = lid → x = y0)
        (leaveActionH env db a b).2.leave_requests db.leave_requests) ∧
    (∀ adminId lid, adminGate db a ("Forbidden") = Except.ok adminId →
      b.leave_id = some lid → ¬ lid = 0 →
      (b.action = some ("approved") ∨ b.action = some ("rejected")) →
      db.leave_requests.find? (fun x => x.id == lid) = none →
      (leaveActionH env db a b).1.status = 404 ∧ (leaveActionH env db a b).2 = db) := by
  refine ⟨?_, ?_, ?_⟩
  · cases leaveActionH_leaves_shape env db a b with
    | inl hsame =>
      rw [hsame, List.forall₂_same]
      exact fun x _ => ⟨rfl, rfl, rfl, rfl, rfl, rfl⟩
    | inr hmap =>
      obtain ⟨lid, act, adminId, _, _, hmap⟩ := hmap
      rw [hmap, List.forall₂_map_left_iff, List.forall₂_same]
      intro x _
      split <;> exact ⟨rfl, rfl, rfl, rfl, rfl, rfl⟩
  · intro lid0 hlid0
    cases leaveActionH_leaves_shape env db a b with
    | inl hsame =>
      rw [hsame, List.forall₂_same]
      exact fun x _ _ => rfl
    | inr hmap =>
      obtain ⟨lid, act, adminId, hlid, _, hmap⟩ := hmap
      have hl0 : lid0 = lid := by
        rw [hlid0] at hlid
        exact Option.some.inj hlid
      rw [hmap, List.forall₂_map_left_iff, List.forall₂_same]
      intro x _ hne
      rw [hl0] at hne
      rw [if_neg hne]
  · intro adminId lid hg hlid hnz hact hfind
    cases hact with
    | inl h1 =>
      unfold leaveActionH
      simp only [hg, hlid, h1]
      rw [if_neg hnz]
      rw [if_pos (Or.inl trivial)]
      rw [hfind]
      exact ⟨rfl, rfl⟩
    | inr h1 =>
      unfold leaveActionH
      simp only [hg, hlid, h1]
      rw [if_neg hnz]
      rw [if_pos (Or.inr trivial)]
      rw [hfind]
      exact ⟨rfl, rfl⟩

/-- C10 witness: a well-formed approval for a missing leave_id gets 404 and
changes nothing, and rows of another id are untouched. -/
theorem leaveAction_frame_witness :
    (leaveActionH env0 dbPending adminAuth ⟨some 5, some ("approved"), none⟩).1.status = 404 ∧
    (leaveActionH env0 dbPending adminAuth ⟨some 5, some ("approved"), none⟩).2 = dbPending := by
  have h := leaveAction_frame env0 dbPending adminAuth ⟨some 5, some ("approved"), none⟩
  exact h.2.2 9 5 rfl rfl (by decide) (Or.inl rfl) (by decide)

end DayFlow
